import Mathlib

/-!
Verification development for the execution-core excerpt of a distributed
analytical database: the temporary-file vacuum sweep
(`vacuum_temporary_files.rs`), the recluster orchestration loop and plan
assembler (`interpreter_table_recluster.rs`), and the plan-to-pipeline
compiler's finalization and profiling-scope logic (`pipeline_builder.rs`).

Machine integers of the source (`usize`, `i64`) are modelled as `Nat` / `Int`;
timestamps and durations are integer milliseconds, exactly as the source
converts them (`as_millis() as i64`).  Storage listings are modelled as the
lists of entries the object-store lister yields, in listing order, and every
path handed to a storage `delete` / `remove_via` call is accumulated in order
in a `deleted` list, which is the observable the theorems speak about.
-/

set_option autoImplicit false

namespace DatabendCore

/-! ## Storage model for the vacuum sweep

An entry's metadata as the lister reports it (`Metakey::Mode | Metakey::LastModified`):
an optional last-modified timestamp in milliseconds and a content length in bytes. -/

structure FileMeta where
  lastModified : Option Int
  contentLength : Nat
  deriving DecidableEq, Repr

/-- A direct child listed inside one sub-namespace directory (one temporary
query's working directory).  `isFile` mirrors `meta.is_file()`; a `false`
value models a nested directory entry.  `path` is the full path the source
obtains from `de.path()`, `name` the final component from `de.name()`. -/
structure InnerEntry where
  name : String
  path : String
  isFile : Bool
  meta : FileMeta
  deriving DecidableEq, Repr

/-- A sub-namespace directory: its path (ending in a slash, as opendal yields
directory paths) and its direct children in listing order. -/
structure DirEntry where
  path : String
  entries : List InnerEntry
  deriving DecidableEq, Repr

/-- A direct child of the top-level temporary namespace: either a
sub-namespace directory (`EntryMode::DIR`) or a plain file (`EntryMode::FILE`). -/
inductive TopEntry where
  | dir (d : DirEntry)
  | file (path : String) (meta : FileMeta)
  deriving DecidableEq, Repr

/-- `operator.is_exist(&format!("{}finished", de.path()))`: in the filesystem
model the sentinel exists exactly when the directory's listing contains a
file named `finished`. -/
def hasFinished (d : DirEntry) : Bool :=
  d.entries.any fun e => e.isFile && e.name == "finished"

/-- Default retention for temporary files: 3 days, in milliseconds
(`DEFAULT_RETAIN_DURATION.as_millis() as i64`). -/
def DEFAULT_RETAIN_DURATION_MS : Int := 259200000

/-- The mutable counters threaded through the sweep
(`removed_temp_files`, `total_cleaned_size`, `batch_size`) plus the ordered
list of every path handed to a storage deletion call. -/
structure SweepSt where
  removed : Nat
  totalCleaned : Nat
  batchSize : Nat
  deleted : List String
  deriving DecidableEq, Repr

/-- Issuing one accumulated deletion batch
(lines 114-137 / 210-233 of `vacuum_temporary_files.rs`): when the queue is
non-empty, `total_cleaned_size += batch_size` and the queued paths are
bulk-deleted (`remove_via`). -/
def sweep_flush (st : SweepSt) (queued : List String) : SweepSt :=
  if queued.isEmpty then st
  else { st with
          totalCleaned := st.totalCleaned + st.batchSize,
          deleted := st.deleted ++ queued }

/-- The listing loop of `vacuum_finished_query` (lines 175-238), fused over
the remaining entries of the directory's lister.  `queued` is the current
batch (`remove_temp_files_path`), `allEach` is `all_each_files_removed` for
the current pass, `allFiles` is the accumulated `all_files_removed`.
Returns the final state and the final `all_files_removed` flag.
A batch is flushed when the entry stream is exhausted, or when the global
item limit or the 1000-item batch cap is reached after queueing an entry;
in the latter case the loop re-enters with a fresh pass only while
`removed < limit` still holds. -/
def vfq_go (limit : Nat) (ts life : Int) :
    List InnerEntry → SweepSt → List String → Bool → Bool → SweepSt × Bool
  | [], st, queued, allEach, allFiles =>
    (sweep_flush st queued, allFiles && allEach)
  | e :: rest, st, queued, allEach, allFiles =>
    if e.isFile then
      if e.name = "finished" then
        vfq_go limit ts life rest st queued allEach allFiles
      else
        match e.meta.lastModified with
        | some m =>
          if life ≤ ts - m then
            let st' := { st with
                          removed := st.removed + 1,
                          batchSize := st.batchSize + e.meta.contentLength }
            let queued' := queued ++ [e.path]
            if limit ≤ st'.removed ∨ 1000 ≤ queued'.length then
              let allFiles' := allFiles && allEach
              let st'' := sweep_flush st' queued'
              if st''.removed < limit then
                vfq_go limit ts life rest st'' [] true allFiles'
              else
                (st'', allFiles')
            else
              vfq_go limit ts life rest st' queued' allEach allFiles
          else
            vfq_go limit ts life rest st queued false allFiles
        | none => vfq_go limit ts life rest st queued false allFiles
    else
      vfq_go limit ts life rest st queued false allFiles

/-- Lines 240-243 of `vacuum_finished_query`: when the final
`all_files_removed` flag holds, the sentinel path and the directory path
itself are deleted, in that order. -/
def vfq_finish (d : DirEntry) (r : SweepSt × Bool) : SweepSt × Bool :=
  if r.2 then
    ({ r.1 with deleted := r.1.deleted ++ [d.path ++ "finished", d.path] }, r.2)
  else r

/-- `vacuum_finished_query` (lines 157-246): sweep one sub-namespace
directory with per-entry age threshold `life` (the caller's `life_mills`).
The listing loop only runs while `removed < limit`; `all_files_removed`
starts `true`; afterwards `vfq_finish` deletes the sentinel and the
directory entry when the flag survived. -/
def vacuum_finished_query (limit : Nat) (ts life : Int) (d : DirEntry)
    (st : SweepSt) : SweepSt × Bool :=
  vfq_finish d
    (if st.removed < limit then vfq_go limit ts life d.entries st [] true true
     else (st, true))

/-- The top-level listing loop of `do_vacuum_temporary_files`
(lines 62-144), fused over the remaining entries of the namespace lister.
For a directory child, the effective threshold is `0` when the sentinel
exists and the full retention `expire` otherwise, and the recursive sweep
shares the counters; the outer loop breaks once `removed ≥ limit`.
For a plain file child, an entry with a last-modified timestamp at least
`expire` milliseconds old is queued; reaching the global limit or the
1000-item batch cap flushes the batch, and a fresh pass resets
`batch_size` to zero. -/
def dvtf_go (expire : Int) (limit : Nat) (ts : Int) :
    List TopEntry → SweepSt → List String → SweepSt
  | [], st, queued => sweep_flush st queued
  | TopEntry.dir d :: rest, st, queued =>
    let life : Int := if hasFinished d then 0 else expire
    let st' := (vacuum_finished_query limit ts life d st).1
    if limit ≤ st'.removed then sweep_flush st' queued
    else dvtf_go expire limit ts rest st' queued
  | TopEntry.file p meta :: rest, st, queued =>
    match meta.lastModified with
    | some m =>
      if expire ≤ ts - m then
        let st' := { st with
                      removed := st.removed + 1,
                      batchSize := st.batchSize + meta.contentLength }
        let queued' := queued ++ [p]
        if limit ≤ st'.removed ∨ 1000 ≤ queued'.length then
          let st'' := sweep_flush st' queued'
          if st''.removed < limit then
            dvtf_go expire limit ts rest { st'' with batchSize := 0 } []
          else st''
        else
          dvtf_go expire limit ts rest st' queued'
      else dvtf_go expire limit ts rest st queued
    | none => dvtf_go expire limit ts rest st queued

/-- `do_vacuum_temporary_files` (lines 33-155): returns the number of
removed (counted) temporary files together with the ordered list of every
path deleted from storage.  A zero item limit returns immediately; an
unspecified retention defaults to 3 days. -/
def do_vacuum_temporary_files (retain : Option Int) (limit : Nat) (ts : Int)
    (ns : List TopEntry) : Nat × List String :=
  if limit = 0 then (0, [])
  else
    let expire := retain.getD DEFAULT_RETAIN_DURATION_MS
    let st := dvtf_go expire limit ts ns ⟨0, 0, 0, []⟩ []
    (st.removed, st.deleted)

/-! ## Recluster orchestration loop (`interpreter_table_recluster.rs`) -/

/-- Error kinds relevant to the orchestration loop's classification
(`ErrorCode` in the source): the four conflict kinds matched at
lines 131-136, the abort error surfaced by `ctx.check_aborting()`, and any
other code. -/
inductive ErrCode where
  | tableLockExpired
  | tableAlreadyLocked
  | tableVersionMismatched
  | unresolvableConflict
  | abortedQuery
  | other (code : Nat)
  deriving DecidableEq, Repr

/-- The `matches!` test of `execute2` (lines 130-136): the four
conflict-style error kinds. -/
def isConflict : ErrCode → Bool
  | ErrCode.tableLockExpired => true
  | ErrCode.tableAlreadyLocked => true
  | ErrCode.tableVersionMismatched => true
  | ErrCode.unresolvableConflict => true
  | _ => false

/-- What one pass of the `loop` body in `execute2` observes:
whether `ctx.check_aborting()` failed at the top, the outcome of
`execute_recluster` (`Ok(is_break)` or an error), and the wall-clock
milliseconds elapsed since the loop started as measured at line 145. -/
structure IterObs where
  aborted : Bool
  res : Except ErrCode Bool
  elapsed : Nat
  deriving Repr

/-- How one pass of the loop body ends. -/
inductive StepAction where
  | ret (e : ErrCode)
  | stop
  | next
  deriving DecidableEq, Repr

/-- Lines 156-166 of `execute2`, run after the per-iteration status update:
in single-batch mode (`!plan.is_final`) the loop breaks unconditionally;
in run-until-exhausted mode it breaks (successfully) once the elapsed
wall-clock time meets or exceeds the timeout, and otherwise re-enters. -/
def postIterationCheck (is_final : Bool) (timeout elapsed : Nat) : StepAction :=
  if is_final = false then StepAction.stop
  else if timeout ≤ elapsed then StepAction.stop
  else StepAction.next

/-- One pass of the `loop` body of `execute2` (lines 109-167):
a failed abort check returns its error; `Ok(true)` breaks out immediately;
`Ok(false)` falls through to the post-iteration checks; an error falls
through to those checks only when the loop runs in `is_final` mode and the
error's kind is one of the four conflict kinds, and is returned unchanged
otherwise. -/
def loopStep (is_final : Bool) (timeout : Nat) (o : IterObs) : StepAction :=
  if o.aborted then StepAction.ret ErrCode.abortedQuery
  else
    match o.res with
    | Except.ok true => StepAction.stop
    | Except.ok false => postIterationCheck is_final timeout o.elapsed
    | Except.error e =>
      if is_final && isConflict e then postIterationCheck is_final timeout o.elapsed
      else StepAction.ret e

/-- How the whole orchestration loop exits: with an error (an early
`return Err`), or successfully (a `break`, after which
`PipelineBuildResult::create()` is returned). -/
inductive LoopExit where
  | err (e : ErrCode)
  | ok
  deriving DecidableEq, Repr

/-- The orchestration loop of `execute2`, driven by the finite list of
per-iteration observations.  Returns how many `execute_recluster`
invocations completed (a failed abort check happens before the invocation)
and how the loop exited; `none` means the supplied observation list was
exhausted with the loop still running. -/
def reclusterLoop (is_final : Bool) (timeout : Nat) :
    List IterObs → Nat × Option LoopExit
  | [] => (0, none)
  | o :: rest =>
    match loopStep is_final timeout o with
    | StepAction.ret e => (if o.aborted then 0 else 1, some (LoopExit.err e))
    | StepAction.stop => (1, some LoopExit.ok)
    | StepAction.next =>
      let r := reclusterLoop is_final timeout rest
      (r.1 + 1, r.2)

/-! ## Recluster plan assembly (`build_recluster_physical_plan`) -/

/-- One reclustering task.  Its payload (`ReclusterTask`) is defined outside
the excerpted sources and no claim depends on it, so it is carried as an
abstract identifier. -/
structure ReclusterTask where
  id : Nat
  deriving DecidableEq, Repr

/-- Abstract table descriptor (`TableInfo`), payload irrelevant here. -/
structure TableInfo where
  id : Nat
  deriving DecidableEq, Repr

/-- Abstract table snapshot (`TableSnapshot`), payload irrelevant here. -/
structure TableSnapshot where
  id : Nat
  deriving DecidableEq, Repr

/-- `FragmentKind` of a network exchange; only `Merge` is used here. -/
inductive FragmentKind where
  | init
  | normal
  | expansive
  | merge
  deriving DecidableEq, Repr

/-- `MergeIntoType` from the binder; the profiling-scope logic only compares
against `FullOperation`. -/
inductive MergeIntoType where
  | fullOperation
  | matchedOnly
  | insertOnly
  deriving DecidableEq, Repr

/-- The physical-plan node kinds the claims touch, with the payload fields
they depend on.  The source enum has many more kinds; all of them fall to
the wildcard branch of `add_plan_scope` and none of them occur in the plans
`build_recluster_physical_plan` assembles, so `tableScan` stands in for the
generic wildcard-handled kind (with an input-free payload) alongside the
explicitly matched kinds. -/
inductive PhysicalPlan where
  | tableScan (plan_id : Nat)
  | evalScalar (plan_id : Nat) (input : PhysicalPlan) (exprs : List Nat)
  | mergeInto (plan_id : Nat) (input : PhysicalPlan) (merge_type : MergeIntoType)
  | shuffle (plan_id : Nat) (input : PhysicalPlan)
  | chunkCastSchema (plan_id : Nat) (input : PhysicalPlan)
  | chunkFillAndReorder (plan_id : Nat) (input : PhysicalPlan)
  | chunkMerge (plan_id : Nat) (input : PhysicalPlan)
  | exchange (plan_id : Nat) (input : PhysicalPlan) (kind : FragmentKind)
      (keys : List Nat) (allow_adjust_parallelism : Bool) (ignore_exchange : Bool)
  | reclusterSource (plan_id : Nat) (tasks : List ReclusterTask) (table_info : TableInfo)
  | reclusterSink (plan_id : Nat) (input : PhysicalPlan) (table_info : TableInfo)
      (snapshot : TableSnapshot) (remained_blocks : List Nat)
      (removed_segment_indexes : List Nat) (removed_segment_summary : Nat)
  | compactPart (parts : Nat) (table_info : TableInfo) (snapshot : TableSnapshot)
      (is_distributed : Bool)
  deriving DecidableEq, Repr

/-- `u32::MAX`, the placeholder plan id the assembler writes before the
final renumbering pass. -/
def U32_MAX : Nat := 4294967295

/-- Modelled from the spec: `PhysicalPlan::adjust_plan_id` is defined
outside the excerpted sources; per the spec the assembler assigns
"sequential plan identifiers to the whole tree as a final pass".  Modelled
as a pre-order renumbering carrying the next free identifier. -/
def adjust_plan_id : PhysicalPlan → Nat → PhysicalPlan × Nat
  | PhysicalPlan.tableScan _, n => (PhysicalPlan.tableScan n, n + 1)
  | PhysicalPlan.evalScalar _ input exprs, n =>
    let r := adjust_plan_id input (n + 1)
    (PhysicalPlan.evalScalar n r.1 exprs, r.2)
  | PhysicalPlan.mergeInto _ input mt, n =>
    let r := adjust_plan_id input (n + 1)
    (PhysicalPlan.mergeInto n r.1 mt, r.2)
  | PhysicalPlan.shuffle _ input, n =>
    let r := adjust_plan_id input (n + 1)
    (PhysicalPlan.shuffle n r.1, r.2)
  | PhysicalPlan.chunkCastSchema _ input, n =>
    let r := adjust_plan_id input (n + 1)
    (PhysicalPlan.chunkCastSchema n r.1, r.2)
  | PhysicalPlan.chunkFillAndReorder _ input, n =>
    let r := adjust_plan_id input (n + 1)
    (PhysicalPlan.chunkFillAndReorder n r.1, r.2)
  | PhysicalPlan.chunkMerge _ input, n =>
    let r := adjust_plan_id input (n + 1)
    (PhysicalPlan.chunkMerge n r.1, r.2)
  | PhysicalPlan.exchange _ input k ks a i, n =>
    let r := adjust_plan_id input (n + 1)
    (PhysicalPlan.exchange n r.1 k ks a i, r.2)
  | PhysicalPlan.reclusterSource _ tasks ti, n =>
    (PhysicalPlan.reclusterSource n tasks ti, n + 1)
  | PhysicalPlan.reclusterSink _ input ti snap rb rsi rss, n =>
    let r := adjust_plan_id input (n + 1)
    (PhysicalPlan.reclusterSink n r.1 ti snap rb rsi rss, r.2)
  | PhysicalPlan.compactPart p ti snap d, n => (PhysicalPlan.compactPart p ti snap d, n + 1)

/-- Number of exchange nodes anywhere in a plan tree. -/
def countExchange : PhysicalPlan → Nat
  | PhysicalPlan.tableScan _ => 0
  | PhysicalPlan.evalScalar _ input _ => countExchange input
  | PhysicalPlan.mergeInto _ input _ => countExchange input
  | PhysicalPlan.shuffle _ input => countExchange input
  | PhysicalPlan.chunkCastSchema _ input => countExchange input
  | PhysicalPlan.chunkFillAndReorder _ input => countExchange input
  | PhysicalPlan.chunkMerge _ input => countExchange input
  | PhysicalPlan.exchange _ input _ _ _ _ => 1 + countExchange input
  | PhysicalPlan.reclusterSource _ _ _ => 0
  | PhysicalPlan.reclusterSink _ input _ _ _ _ _ => countExchange input
  | PhysicalPlan.compactPart _ _ _ _ => 0

/-- The tagged "work to do" union (`ReclusterTasks`). -/
inductive ReclusterTasks where
  | recluster (tasks : List ReclusterTask) (remained_blocks : List Nat)
      (removed_segment_indexes : List Nat) (removed_segment_summary : Nat)
  | compact (parts : Nat)
  deriving DecidableEq, Repr

/-- Modelled from the spec: `OptimizeTableInterpreter::build_physical_plan`,
the generic compaction plan builder the `Compact` variant delegates to, is
defined outside the excerpted sources; its result is carried as an opaque
node holding exactly the delegated arguments. -/
def optimize_table_build_physical_plan (parts : Nat) (table_info : TableInfo)
    (snapshot : TableSnapshot) (is_distributed : Bool) : PhysicalPlan :=
  PhysicalPlan.compactPart parts table_info snapshot is_distributed

/-- `build_recluster_physical_plan` (lines 255-303): for the `Recluster`
variant, a recluster-source node is built, wrapped in a merge exchange with
no partition keys (parallelism adjustable) exactly when `is_distributed`,
then wrapped in a recluster-sink node, and the tree is renumbered; the
`Compact` variant delegates to the generic compaction plan builder. -/
def build_recluster_physical_plan (tasks : ReclusterTasks) (table_info : TableInfo)
    (snapshot : TableSnapshot) (is_distributed : Bool) : PhysicalPlan :=
  match tasks with
  | ReclusterTasks.recluster ts remained_blocks removed_segment_indexes
      removed_segment_summary =>
    let root := PhysicalPlan.reclusterSource U32_MAX ts table_info
    let root :=
      if is_distributed then
        PhysicalPlan.exchange 0 root FragmentKind.merge [] true false
      else root
    let plan := PhysicalPlan.reclusterSink U32_MAX root table_info snapshot
      remained_blocks removed_segment_indexes removed_segment_summary
    (adjust_plan_id plan 0).1
  | ReclusterTasks.compact parts =>
    optimize_table_build_physical_plan parts table_info snapshot is_distributed

/-! ## Pipeline builder finalization and profiling scopes
(`pipeline_builder.rs`) -/

/-- Modelled from the spec: the `Pipeline` type and its completeness
check (`is_complete_pipeline`: every stage has both inputs and outputs
connected) live outside the excerpted sources; completeness is abstracted
as an observable flag. -/
structure Pipeline where
  is_complete : Bool
  deriving DecidableEq, Repr

/-- The error kind of the compiler: the claims only distinguish the
structural internal error. -/
inductive DbError where
  | internal (msg : String)
  deriving DecidableEq, Repr

/-- The compiler's output (`PipelineBuildResult`): the main pipeline and the
accumulated source pipelines (the auxiliary cross-cutting state fields of
the source struct carry no information the claims touch). -/
structure PipelineBuildResult where
  main_pipeline : Pipeline
  sources_pipelines : List Pipeline
  deriving DecidableEq, Repr

/-- The builder's state after `build_pipeline(plan)` has returned: its main
pipeline and accumulated source pipelines.  The per-node handlers that
produce this state are defined outside the excerpted sources, so
finalization is verified over every possible post-build state. -/
structure BuilderPostBuild where
  main_pipeline : Pipeline
  pipelines : List Pipeline
  deriving DecidableEq, Repr

/-- The finalization step of `PipelineBuilder::finalize` (lines 88-105):
every accumulated source pipeline must satisfy the completeness invariant,
otherwise the internal error "Source pipeline must be complete pipeline."
is returned; the main pipeline is moved into the result without a check. -/
def pipeline_builder_finalize (st : BuilderPostBuild) :
    Except DbError PipelineBuildResult :=
  if st.pipelines.all (fun p => p.is_complete) then
    Except.ok { main_pipeline := st.main_pipeline, sources_pipelines := st.pipelines }
  else
    Except.error (DbError.internal "Source pipeline must be complete pipeline.")

/-- A profiling scope (`PlanScope`): the node's identifier and display name
(the description and labels are built from `get_desc` / `get_labels`,
defined per kind outside the excerpted sources, and carry no information
the claims touch). -/
structure PlanScope where
  id : Nat
  scope_name : String
  deriving DecidableEq, Repr

/-- The node's plan identifier (`plan.get_id()`). -/
def plan_get_id : PhysicalPlan → Nat
  | PhysicalPlan.tableScan i => i
  | PhysicalPlan.evalScalar i _ _ => i
  | PhysicalPlan.mergeInto i _ _ => i
  | PhysicalPlan.shuffle i _ => i
  | PhysicalPlan.chunkCastSchema i _ => i
  | PhysicalPlan.chunkFillAndReorder i _ => i
  | PhysicalPlan.chunkMerge i _ => i
  | PhysicalPlan.exchange i _ _ _ _ _ => i
  | PhysicalPlan.reclusterSource i _ _ => i
  | PhysicalPlan.reclusterSink i _ _ _ _ _ _ => i
  | PhysicalPlan.compactPart _ _ _ _ => 0

/-- The node's display name (`plan.name()`), defined per kind outside the
excerpted sources; the claims only use that a scope is or is not attached. -/
def plan_name : PhysicalPlan → String
  | PhysicalPlan.tableScan _ => "TableScan"
  | PhysicalPlan.evalScalar _ _ _ => "EvalScalar"
  | PhysicalPlan.mergeInto _ _ _ => "MergeInto"
  | PhysicalPlan.shuffle _ _ => "Shuffle"
  | PhysicalPlan.chunkCastSchema _ _ => "ChunkCastSchema"
  | PhysicalPlan.chunkFillAndReorder _ _ => "ChunkFillAndReorder"
  | PhysicalPlan.chunkMerge _ _ => "ChunkMerge"
  | PhysicalPlan.exchange _ _ _ _ _ _ => "Exchange"
  | PhysicalPlan.reclusterSource _ _ _ => "ReclusterSource"
  | PhysicalPlan.reclusterSink _ _ _ _ _ _ _ => "ReclusterSink"
  | PhysicalPlan.compactPart _ _ _ _ => "CompactPart"

/-- `PipelineBuilder::add_plan_scope` (lines 108-136): an `EvalScalar` node
with an empty expression list, a `MergeInto` node whose merge type is not
`FullOperation`, and the `Shuffle` / `ChunkCastSchema` /
`ChunkFillAndReorder` / `ChunkMerge` kinds receive no profiling scope;
every other node receives a scope built from its identifier and name. -/
def add_plan_scope (plan : PhysicalPlan) : Option PlanScope :=
  match plan with
  | PhysicalPlan.evalScalar _ _ exprs =>
    if exprs.isEmpty then none
    else some { id := plan_get_id plan, scope_name := plan_name plan }
  | PhysicalPlan.mergeInto _ _ mt =>
    if mt ≠ MergeIntoType.fullOperation then none
    else some { id := plan_get_id plan, scope_name := plan_name plan }
  | PhysicalPlan.shuffle _ _ => none
  | PhysicalPlan.chunkCastSchema _ _ => none
  | PhysicalPlan.chunkFillAndReorder _ _ => none
  | PhysicalPlan.chunkMerge _ _ => none
  | _ => some { id := plan_get_id plan, scope_name := plan_name plan }

/-- A path the recursive per-directory sweep may legitimately delete from a
sub-namespace `d` under threshold `life`: the path of a listed file entry,
not named `finished`, carrying a last-modified timestamp at least `life`
milliseconds old. -/
def innerDeletable (ts life : Int) (d : DirEntry) (q : String) : Prop :=
  ∃ e, e ∈ d.entries ∧ e.isFile = true ∧ e.name ≠ "finished" ∧
    (∃ m, e.meta.lastModified = some m ∧ life ≤ ts - m) ∧ q = e.path

/-- A path the whole vacuum sweep may delete from namespace `ns`: an expired
top-level file carrying a timestamp, an inner-deletable path of some listed
sub-namespace (under that sub-namespace's effective threshold), or the
sentinel path or directory path of some listed sub-namespace. -/
def topDeletable (expire ts : Int) (ns : List TopEntry) (q : String) : Prop :=
  (∃ p meta, TopEntry.file p meta ∈ ns ∧
    (∃ m, meta.lastModified = some m ∧ expire ≤ ts - m) ∧ q = p) ∨
  (∃ d, TopEntry.dir d ∈ ns ∧
    (innerDeletable ts (if hasFinished d then 0 else expire) d q ∨
     q = d.path ++ "finished" ∨ q = d.path))

/-! ## Helper lemmas -/

@[simp]
theorem sweep_flush_removed (st : SweepSt) (q : List String) :
    (sweep_flush st q).removed = st.removed := by
  unfold sweep_flush; split <;> rfl

@[simp]
theorem sweep_flush_nil (st : SweepSt) : sweep_flush st [] = st := by
  unfold sweep_flush; rfl

@[simp]
theorem vfq_finish_removed (d : DirEntry) (r : SweepSt × Bool) :
    ((vfq_finish d r).1).removed = r.1.removed := by
  unfold vfq_finish; split <;> rfl

@[simp]
theorem vfq_finish_snd (d : DirEntry) (r : SweepSt × Bool) :
    (vfq_finish d r).2 = r.2 := by
  unfold vfq_finish; split <;> rfl

/-- The recursive per-directory listing loop never drives the removal
counter past the global item limit: entered below the limit, it ends at or
below it. -/
theorem vfq_go_removed_le (limit : Nat) (ts life : Int) :
    ∀ (entries : List InnerEntry) (st : SweepSt) (queued : List String)
      (aE aF : Bool), st.removed < limit →
      ((vfq_go limit ts life entries st queued aE aF).1).removed ≤ limit := by
  intro entries
  induction entries with
  | nil =>
    intro st queued aE aF h
    simp only [vfq_go, sweep_flush_removed]
    omega
  | cons e rest ih =>
    intro st queued aE aF h
    simp only [vfq_go]
    split
    · split
      · exact ih st queued aE aF h
      · split
        · split
          · split
            · split
              · next hlt => exact ih _ _ _ _ hlt
              · simp only [sweep_flush_removed]
                exact h
            · next hno =>
              simp only [not_or] at hno
              exact ih _ _ _ _ (lt_of_not_le hno.1)
          · exact ih st queued false aF h
        · exact ih st queued false aF h
    · exact ih st queued false aF h

/-- The sweep of one sub-namespace never drives the removal counter past the
global item limit. -/
theorem vacuum_finished_query_removed_le (limit : Nat) (ts life : Int)
    (d : DirEntry) (st : SweepSt) (h : st.removed < limit) :
    ((vacuum_finished_query limit ts life d st).1).removed ≤ limit := by
  unfold vacuum_finished_query
  rw [if_pos h, vfq_finish_removed]
  exact vfq_go_removed_le limit ts life d.entries st [] true true h

/-- The top-level listing loop never drives the removal counter past the
global item limit. -/
theorem dvtf_go_removed_le (expire : Int) (limit : Nat) (ts : Int) :
    ∀ (ns : List TopEntry) (st : SweepSt) (queued : List String),
      st.removed < limit →
      (dvtf_go expire limit ts ns st queued).removed ≤ limit := by
  intro ns
  induction ns with
  | nil =>
    intro st queued h
    simp only [dvtf_go, sweep_flush_removed]
    omega
  | cons e rest ih =>
    intro st queued h
    cases e with
    | dir d =>
      simp only [dvtf_go]
      generalize (if hasFinished d then (0 : Int) else expire) = life
      split
      · simp only [sweep_flush_removed]
        exact vacuum_finished_query_removed_le limit ts life d st h
      · next hno => exact ih _ _ (lt_of_not_le hno)
    | file p meta =>
      simp only [dvtf_go]
      split
      · split
        · split
          · split
            · next hlt => exact ih _ _ hlt
            · simp only [sweep_flush_removed]
              exact h
          · next hno =>
            simp only [not_or] at hno
            exact ih _ _ (lt_of_not_le hno.1)
        · exact ih st queued h
      · exact ih st queued h

/-- Flushing a batch only adds paths from the batch to the deleted list. -/
theorem sweep_flush_deleted_sound (P : String → Prop) (st : SweepSt)
    (q : List String) (h1 : ∀ x ∈ st.deleted, P x) (h2 : ∀ x ∈ q, P x) :
    ∀ x ∈ (sweep_flush st q).deleted, P x := by
  unfold sweep_flush
  split
  · exact h1
  · intro x hx
    rcases List.mem_append.mp hx with hx | hx
    · exact h1 x hx
    · exact h2 x hx

/-- Every path the recursive per-directory listing loop deletes is either
already in the deleted list, in the pending batch, or the path of a listed
file entry, not named `finished`, with a timestamp at least `life` old. -/
theorem vfq_go_deleted_sound (limit : Nat) (ts life : Int) (P : String → Prop) :
    ∀ (entries : List InnerEntry) (st : SweepSt) (queued : List String)
      (aE aF : Bool),
      (∀ x ∈ st.deleted, P x) → (∀ x ∈ queued, P x) →
      (∀ e ∈ entries, e.isFile = true → ¬ e.name = "finished" →
        ∀ m, e.meta.lastModified = some m → life ≤ ts - m → P e.path) →
      ∀ x ∈ ((vfq_go limit ts life entries st queued aE aF).1).deleted, P x := by
  intro entries
  induction entries with
  | nil =>
    intro st queued aE aF h1 h2 _
    simp only [vfq_go]
    exact sweep_flush_deleted_sound P st queued h1 h2
  | cons e rest ih =>
    intro st queued aE aF h1 h2 hent
    have htail : ∀ e' ∈ rest, e'.isFile = true → ¬ e'.name = "finished" →
        ∀ m, e'.meta.lastModified = some m → life ≤ ts - m → P e'.path :=
      fun e' he' => hent e' (List.mem_cons_of_mem e he')
    simp only [vfq_go]
    split
    · next hf =>
      split
      · exact ih st queued aE aF h1 h2 htail
      · next hn =>
        split
        · next m heq =>
          split
          · next hexp =>
            have hpath : P e.path := hent e (List.mem_cons_self e rest) hf hn m heq hexp
            have h2' : ∀ x ∈ queued ++ [e.path], P x := by
              intro x hx
              rcases List.mem_append.mp hx with hx | hx
              · exact h2 x hx
              · rcases List.mem_singleton.mp hx with rfl
                exact hpath
            split
            · have hflush := sweep_flush_deleted_sound P
                { st with removed := st.removed + 1,
                          batchSize := st.batchSize + e.meta.contentLength }
                (queued ++ [e.path]) h1 h2'
              split
              · refine ih _ [] true _ hflush ?_ htail
                intro x hx
                exact absurd hx (List.not_mem_nil x)
              · exact hflush
            · exact ih _ (queued ++ [e.path]) aE aF h1 h2' htail
          · exact ih st queued false aF h1 h2 htail
        · exact ih st queued false aF h1 h2 htail
    · exact ih st queued false aF h1 h2 htail

/-- Everything the sentinel-and-directory deletion step adds is one of the
two paths it is allowed to delete. -/
theorem vfq_finish_deleted_sound (P : String → Prop) (d : DirEntry)
    (r : SweepSt × Bool) (h : ∀ x ∈ r.1.deleted, P x)
    (hsent : P (d.path ++ "finished")) (hdir : P d.path) :
    ∀ x ∈ ((vfq_finish d r).1).deleted, P x := by
  unfold vfq_finish
  split
  · intro x hx
    rcases List.mem_append.mp hx with hx | hx
    · exact h x hx
    · rcases List.mem_cons.mp hx with rfl | hx
      · exact hsent
      · rcases List.mem_singleton.mp hx with rfl
        exact hdir
  · exact h

/-- Every path the sweep of one sub-namespace deletes is either already in
the deleted list, a legitimately expired listed file of that sub-namespace,
its sentinel path, or its directory path. -/
theorem vacuum_finished_query_deleted_sound (limit : Nat) (ts life : Int)
    (P : String → Prop) (d : DirEntry) (st : SweepSt)
    (h1 : ∀ x ∈ st.deleted, P x)
    (hent : ∀ e ∈ d.entries, e.isFile = true → ¬ e.name = "finished" →
      ∀ m, e.meta.lastModified = some m → life ≤ ts - m → P e.path)
    (hsent : P (d.path ++ "finished")) (hdir : P d.path) :
    ∀ x ∈ ((vacuum_finished_query limit ts life d st).1).deleted, P x := by
  unfold vacuum_finished_query
  refine vfq_finish_deleted_sound P d _ ?_ hsent hdir
  split
  · exact vfq_go_deleted_sound limit ts life P d.entries st [] true true h1
      (fun x hx => absurd hx (List.not_mem_nil x)) hent
  · exact h1

/-- Every path the top-level listing loop deletes is either already in the
deleted list, in the pending batch, an expired timestamped top-level file,
or accounted to one of the listed sub-namespaces. -/
theorem dvtf_go_deleted_sound (expire : Int) (limit : Nat) (ts : Int)
    (P : String → Prop) :
    ∀ (ns : List TopEntry) (st : SweepSt) (queued : List String),
      (∀ x ∈ st.deleted, P x) → (∀ x ∈ queued, P x) →
      (∀ p meta, TopEntry.file p meta ∈ ns → ∀ m, meta.lastModified = some m →
        expire ≤ ts - m → P p) →
      (∀ d, TopEntry.dir d ∈ ns →
        (∀ e ∈ d.entries, e.isFile = true → ¬ e.name = "finished" →
          ∀ m, e.meta.lastModified = some m →
          (if hasFinished d then (0 : Int) else expire) ≤ ts - m → P e.path) ∧
        P (d.path ++ "finished") ∧ P d.path) →
      ∀ x ∈ (dvtf_go expire limit ts ns st queued).deleted, P x := by
  intro ns
  induction ns with
  | nil =>
    intro st queued h1 h2 _ _
    simp only [dvtf_go]
    exact sweep_flush_deleted_sound P st queued h1 h2
  | cons ent rest ih =>
    intro st queued h1 h2 hfile hdir
    have hfile' : ∀ p meta, TopEntry.file p meta ∈ rest →
        ∀ m, meta.lastModified = some m → expire ≤ ts - m → P p :=
      fun p meta hm => hfile p meta (List.mem_cons_of_mem ent hm)
    have hdir' : ∀ d, TopEntry.dir d ∈ rest →
        (∀ e ∈ d.entries, e.isFile = true → ¬ e.name = "finished" →
          ∀ m, e.meta.lastModified = some m →
          (if hasFinished d then (0 : Int) else expire) ≤ ts - m → P e.path) ∧
        P (d.path ++ "finished") ∧ P d.path :=
      fun d hm => hdir d (List.mem_cons_of_mem ent hm)
    cases ent with
    | dir d =>
      have hd := hdir d (List.mem_cons_self (TopEntry.dir d) rest)
      simp only [dvtf_go]
      generalize hl : (if hasFinished d then (0 : Int) else expire) = life at hd ⊢
      have hsound : ∀ x ∈ ((vacuum_finished_query limit ts life d st).1).deleted,
          P x :=
        vacuum_finished_query_deleted_sound limit ts life P d st h1 hd.1 hd.2.1 hd.2.2
      split
      · exact sweep_flush_deleted_sound P _ queued hsound h2
      · exact ih _ queued hsound h2 hfile' hdir'
    | file p meta =>
      simp only [dvtf_go]
      split
      · next m heq =>
        split
        · next hexp =>
          have hpath : P p :=
            hfile p meta (List.mem_cons_self (TopEntry.file p meta) rest) m heq hexp
          have h2' : ∀ x ∈ queued ++ [p], P x := by
            intro x hx
            rcases List.mem_append.mp hx with hx | hx
            · exact h2 x hx
            · rcases List.mem_singleton.mp hx with rfl
              exact hpath
          split
          · have hflush := sweep_flush_deleted_sound P
              { st with removed := st.removed + 1,
                        batchSize := st.batchSize + meta.contentLength }
              (queued ++ [p]) h1 h2'
            split
            · refine ih _ [] ?_ ?_ hfile' hdir'
              · exact hflush
              · intro x hx
                exact absurd hx (List.not_mem_nil x)
            · exact hflush
          · exact ih _ (queued ++ [p]) h1 h2' hfile' hdir'
        · exact ih st queued h1 h2 hfile' hdir'
      · exact ih st queued h1 h2 hfile' hdir'

/-- Once the accumulated `all_files_removed` flag is false, it stays false
for the rest of the per-directory sweep. -/
theorem vfq_go_false_sticky (limit : Nat) (ts life : Int) :
    ∀ (entries : List InnerEntry) (st : SweepSt) (queued : List String)
      (aE : Bool),
      (vfq_go limit ts life entries st queued aE false).2 = false := by
  intro entries
  induction entries with
  | nil =>
    intro st queued aE
    simp [vfq_go]
  | cons e rest ih =>
    intro st queued aE
    simp only [vfq_go]
    split
    · split
      · exact ih st queued aE
      · split
        · split
          · split
            · split
              · simpa using ih _ [] true
              · simp
            · exact ih _ _ aE
          · exact ih st queued false
        · exact ih st queued false
    · exact ih st queued false

/-- Once the current pass's `all_each_files_removed` flag is false, the
final `all_files_removed` flag is false. -/
theorem vfq_go_allEach_false (limit : Nat) (ts life : Int) :
    ∀ (entries : List InnerEntry) (st : SweepSt) (queued : List String)
      (aF : Bool),
      (vfq_go limit ts life entries st queued false aF).2 = false := by
  intro entries
  induction entries with
  | nil =>
    intro st queued aF
    simp [vfq_go]
  | cons e rest ih =>
    intro st queued aF
    simp only [vfq_go]
    split
    · split
      · exact ih st queued aF
      · split
        · split
          · split
            · split
              · simpa using vfq_go_false_sticky limit ts life rest _ [] true
              · simp
            · exact ih _ _ aF
          · exact ih st queued aF
        · exact ih st queued aF
    · exact ih st queued aF

/-- If the directory's listing contains a file entry, not named `finished`,
that carries no last-modified timestamp, then the per-directory sweep
either ends with `all_files_removed` false or was cut short by the global
item limit. -/
theorem vfq_go_prevent (limit : Nat) (ts life : Int) :
    ∀ (entries : List InnerEntry) (st : SweepSt) (queued : List String)
      (aE aF : Bool) (e : InnerEntry), e ∈ entries →
      e.isFile = true → ¬ e.name = "finished" → e.meta.lastModified = none →
      (vfq_go limit ts life entries st queued aE aF).2 = false ∨
        limit ≤ ((vfq_go limit ts life entries st queued aE aF).1).removed := by
  intro entries
  induction entries with
  | nil =>
    intro st queued aE aF e he
    exact absurd he (List.not_mem_nil e)
  | cons hd rest ih =>
    intro st queued aE aF e he hf hn hnone
    rcases List.mem_cons.mp he with rfl | hmem
    · simp only [vfq_go, hf, hnone, if_true]
      rw [if_neg hn]
      exact Or.inl (vfq_go_allEach_false limit ts life rest st queued aF)
    · simp only [vfq_go]
      split
      · split
        · exact ih st queued aE aF e hmem hf hn hnone
        · split
          · split
            · split
              · split
                · exact ih _ [] true _ e hmem hf hn hnone
                · next hno =>
                  refine Or.inr ?_
                  simp only [sweep_flush_removed] at hno ⊢
                  omega
              · exact ih _ _ aE aF e hmem hf hn hnone
            · exact ih st queued false aF e hmem hf hn hnone
          · exact ih st queued false aF e hmem hf hn hnone
      · exact ih st queued false aF e hmem hf hn hnone

/-! ## Claim theorems -/

/-- C1 (counterexample): a sub-namespace lacking the `finished` sentinel is
swept with the full retention threshold, not threshold zero: with default
retention (3 days) a file aged 1 day inside a sentinel-less directory is not
removed (the sweep removes nothing), while a sweep of the same directory
with the threshold the claim asserts (zero) would remove it. -/
theorem claim1_counterexample :
    hasFinished ⟨"tmp/qc/", [⟨"y", "tmp/qc/y", true, ⟨some 399913600000, 5⟩⟩]⟩ = false ∧
    do_vacuum_temporary_files none 10 400000000000
        [TopEntry.dir ⟨"tmp/qc/", [⟨"y", "tmp/qc/y", true, ⟨some 399913600000, 5⟩⟩]⟩]
      = (0, []) ∧
    ((vacuum_finished_query 10 400000000000 0
        ⟨"tmp/qc/", [⟨"y", "tmp/qc/y", true, ⟨some 399913600000, 5⟩⟩]⟩
        ⟨0, 0, 0, []⟩).1).removed = 1 := by
  refine ⟨rfl, ?_, rfl⟩
  decide

/-- C1 (amended): for every direct sub-namespace child, the effective
per-entry age threshold used when recursing into it is zero if the
`finished` sentinel is present and the configured retention duration if the
sentinel is absent: the sweep of a namespace holding one sub-namespace
behaves exactly as the recursive per-directory sweep run with that
threshold. -/
theorem claim1_threshold (d : DirEntry) (retain : Option Int) (limit : Nat)
    (ts : Int) (h : 0 < limit) :
    do_vacuum_temporary_files retain limit ts [TopEntry.dir d] =
      (((vacuum_finished_query limit ts
            (if hasFinished d then 0 else retain.getD DEFAULT_RETAIN_DURATION_MS)
            d ⟨0, 0, 0, []⟩).1).removed,
       ((vacuum_finished_query limit ts
            (if hasFinished d then 0 else retain.getD DEFAULT_RETAIN_DURATION_MS)
            d ⟨0, 0, 0, []⟩).1).deleted) := by
  have hlim : ¬ limit = 0 := Nat.pos_iff_ne_zero.mp h
  simp only [do_vacuum_temporary_files, if_neg hlim, dvtf_go]
  split
  · simp
  · simp [dvtf_go]

/-- C1 (witness): the amended threshold theorem evaluated on an empty
sub-namespace with item limit 2. -/
theorem claim1_witness :
    0 < 2 ∧
    do_vacuum_temporary_files none 2 5 [TopEntry.dir ⟨"p/", []⟩] =
      (((vacuum_finished_query 2 5
            (if hasFinished ⟨"p/", []⟩ then 0 else (none : Option Int).getD DEFAULT_RETAIN_DURATION_MS)
            ⟨"p/", []⟩ ⟨0, 0, 0, []⟩).1).removed,
       ((vacuum_finished_query 2 5
            (if hasFinished ⟨"p/", []⟩ then 0 else (none : Option Int).getD DEFAULT_RETAIN_DURATION_MS)
            ⟨"p/", []⟩ ⟨0, 0, 0, []⟩).1).deleted) :=
  ⟨by decide, claim1_threshold ⟨"p/", []⟩ none 2 5 (by decide)⟩

/-- C2 (counterexample): finalization does not check the main pipeline: on a
post-build state whose main pipeline is incomplete and whose source-pipeline
list is empty, finalization succeeds and returns the incomplete main
pipeline, so it is not the case that every successful finalization yields a
complete main pipeline. -/
theorem claim2_counterexample :
    ¬ (∀ (st : BuilderPostBuild) (r : PipelineBuildResult),
        pipeline_builder_finalize st = Except.ok r →
        r.main_pipeline.is_complete = true ∧
        ∀ p ∈ r.sources_pipelines, p.is_complete = true) := by
  intro h
  have := (h ⟨⟨false⟩, []⟩ ⟨⟨false⟩, []⟩ rfl).1
  simp at this

/-- C2 (amended): finalization either returns a result in which every
accumulated source pipeline satisfies the completeness invariant, or fails
with the structural internal error; the main pipeline is returned without a
completeness check (downstream callers assert it separately). -/
theorem claim2_sources_complete (st : BuilderPostBuild) :
    (∀ r, pipeline_builder_finalize st = Except.ok r →
      (∀ p ∈ r.sources_pipelines, p.is_complete = true) ∧
      r.main_pipeline = st.main_pipeline) ∧
    (∀ e, pipeline_builder_finalize st = Except.error e →
      e = DbError.internal "Source pipeline must be complete pipeline.") := by
  unfold pipeline_builder_finalize
  constructor
  · intro r hr
    split at hr
    · next hall =>
      cases hr
      refine ⟨?_, rfl⟩
      intro p hp
      exact List.all_eq_true.mp hall p hp
    · exact absurd hr (by simp)
  · intro e he
    split at he
    · exact absurd he (by simp)
    · cases he; rfl

/-- C2 (witness): the amended finalization theorem evaluated on a state with
one complete source pipeline. -/
theorem claim2_witness :
    (∀ p ∈ (PipelineBuildResult.mk ⟨true⟩ [⟨true⟩]).sources_pipelines,
        p.is_complete = true) ∧
    (PipelineBuildResult.mk ⟨true⟩ [⟨true⟩]).main_pipeline =
      (BuilderPostBuild.mk ⟨true⟩ [⟨true⟩]).main_pipeline :=
  (claim2_sources_complete ⟨⟨true⟩, [⟨true⟩]⟩).1 ⟨⟨true⟩, [⟨true⟩]⟩ rfl

/-- C3 (code evaluation at the failing input): with item limit 1 and a
sub-namespace holding its `finished` sentinel and two expired files `a` and
`b`, the sweep stops at the limit after removing only `a`, yet still deletes
the sentinel (and the directory), while `b` was never deleted — the sweep's
own `all_files_removed` flag remains true although the listing was cut
short. -/
theorem claim3_sentinel_deleted_early :
    do_vacuum_temporary_files none 1 1000000000
        [TopEntry.dir ⟨"tmp/q3/",
          [⟨"finished", "tmp/q3/finished", true, ⟨some 0, 0⟩⟩,
           ⟨"a", "tmp/q3/a", true, ⟨some 0, 10⟩⟩,
           ⟨"b", "tmp/q3/b", true, ⟨some 0, 20⟩⟩]⟩]
      = (1, ["tmp/q3/a", "tmp/q3/finished", "tmp/q3/"]) ∧
    "tmp/q3/b" ∉ ["tmp/q3/a", "tmp/q3/finished", "tmp/q3/"] := by
  constructor
  · decide
  · decide

/-- C4 (counterexample): with item limit 1 and a sub-namespace holding its
sentinel and one expired file, the sweep issues three storage deletions (the
file, the sentinel, and the directory entry), so a single invocation removes
more than `N` items from storage. -/
theorem claim4_counterexample :
    ¬ ((do_vacuum_temporary_files none 1 1000000000
        [TopEntry.dir ⟨"tmp/q4/",
          [⟨"finished", "tmp/q4/finished", true, ⟨some 0, 0⟩⟩,
           ⟨"g", "tmp/q4/g", true, ⟨some 0, 7⟩⟩]⟩]).2.length ≤ 1) := by
  decide

/-- C4 (amended): for every namespace, retention setting, and item limit
`N`, one invocation of the vacuum sweep removes at most `N` counted
temporary files (the returned count never exceeds `N`); the sentinel file
and directory entry of a fully swept sub-namespace are deleted in addition,
outside this count. -/
theorem claim4_budget (retain : Option Int) (limit : Nat) (ts : Int)
    (ns : List TopEntry) :
    (do_vacuum_temporary_files retain limit ts ns).1 ≤ limit := by
  unfold do_vacuum_temporary_files
  split
  · simp
  · next h =>
      dsimp only
      exact dvtf_go_removed_le _ limit ts ns ⟨0, 0, 0, []⟩ [] (Nat.pos_of_ne_zero h)

/-- C5 (counterexample): with an unlimited budget, retention of 3 days, and
a sentinel-less sub-namespace `tmp/q1/` holding one file aged 4 days, the
sweep deletes the directory entry itself (its path is issued to storage
deletion), contradicting the claim that the directory is left in place. -/
theorem claim5_counterexample :
    "tmp/q1/" ∈ (do_vacuum_temporary_files (some 259200000) 1000000 400000000000
        [TopEntry.dir ⟨"tmp/q1/",
          [⟨"x", "tmp/q1/x", true, ⟨some 399654400000, 100⟩⟩]⟩]).2 := by
  decide

/-- C5 (amended): in that scenario the stale file is removed and, since
every file beneath the sub-namespace was removed, the sweep also deletes the
sentinel path and the directory entry itself — absence of the sentinel does
not protect the directory. -/
theorem claim5_amended :
    do_vacuum_temporary_files (some 259200000) 1000000 400000000000
        [TopEntry.dir ⟨"tmp/q1/",
          [⟨"x", "tmp/q1/x", true, ⟨some 399654400000, 100⟩⟩]⟩]
      = (1, ["tmp/q1/x", "tmp/q1/finished", "tmp/q1/"]) := by
  decide

/-- C6: for an iteration that fails (and was not aborted at the top), the
loop re-enters exactly when it runs in run-until-exhausted (`is_final`)
mode, the error's kind is one of the four conflict kinds, and the timeout
has not yet elapsed; in single-batch mode that same error, and in any mode
a non-conflict error, is returned to the caller unchanged; and in
run-until-exhausted mode a conflict error is never returned. -/
theorem claim6_error_classification (is_final : Bool) (timeout : Nat)
    (o : IterObs) (e : ErrCode) (hab : o.aborted = false)
    (hres : o.res = Except.error e) :
    ((is_final = false ∨ isConflict e = false) →
      loopStep is_final timeout o = StepAction.ret e) ∧
    (loopStep is_final timeout o = StepAction.next ↔
      (is_final = true ∧ isConflict e = true ∧ o.elapsed < timeout)) ∧
    (is_final = true → isConflict e = true →
      ∀ e', loopStep is_final timeout o ≠ StepAction.ret e') := by
  unfold loopStep postIterationCheck
  rw [hab, hres]
  simp only [Bool.false_eq_true, if_false]
  cases is_final
  · cases hc : isConflict e <;> simp [Nat.lt_iff_add_one_le]
  · cases hc : isConflict e
    · simp
    · by_cases ht : timeout ≤ o.elapsed
      all_goals simp [ht]
      all_goals omega

/-- C6 (witness): a lock-already-held conflict in single-batch mode is
returned unchanged. -/
theorem claim6_witness :
    loopStep false 10 ⟨false, Except.error ErrCode.tableAlreadyLocked, 0⟩ =
      StepAction.ret ErrCode.tableAlreadyLocked :=
  (claim6_error_classification false 10
      ⟨false, Except.error ErrCode.tableAlreadyLocked, 0⟩
      ErrCode.tableAlreadyLocked rfl rfl).1 (Or.inl rfl)

/-- C7: for every `Recluster` task list, the assembled physical plan
contains no exchange node when `is_distributed` is false, and exactly one —
positioned between the recluster-source node and the recluster-sink node —
when `is_distributed` is true. -/
theorem claim7_exchange (ts : List ReclusterTask) (rb rsi : List Nat)
    (rss : Nat) (ti : TableInfo) (snap : TableSnapshot) (dis : Bool) :
    (dis = false →
      build_recluster_physical_plan (ReclusterTasks.recluster ts rb rsi rss) ti snap dis =
        PhysicalPlan.reclusterSink 0 (PhysicalPlan.reclusterSource 1 ts ti)
          ti snap rb rsi rss ∧
      countExchange
        (build_recluster_physical_plan (ReclusterTasks.recluster ts rb rsi rss) ti snap dis)
        = 0) ∧
    (dis = true →
      build_recluster_physical_plan (ReclusterTasks.recluster ts rb rsi rss) ti snap dis =
        PhysicalPlan.reclusterSink 0
          (PhysicalPlan.exchange 1 (PhysicalPlan.reclusterSource 2 ts ti)
            FragmentKind.merge [] true false)
          ti snap rb rsi rss ∧
      countExchange
        (build_recluster_physical_plan (ReclusterTasks.recluster ts rb rsi rss) ti snap dis)
        = 1) := by
  cases dis
  all_goals simp [build_recluster_physical_plan, adjust_plan_id, countExchange]

/-- C7 (witness): the distributed case evaluated on a one-task batch. -/
theorem claim7_witness :
    build_recluster_physical_plan
        (ReclusterTasks.recluster [⟨5⟩] [1] [2] 9) ⟨1⟩ ⟨2⟩ true =
      PhysicalPlan.reclusterSink 0
        (PhysicalPlan.exchange 1 (PhysicalPlan.reclusterSource 2 [⟨5⟩] ⟨1⟩)
          FragmentKind.merge [] true false)
        ⟨1⟩ ⟨2⟩ [1] [2] 9 ∧
    countExchange (build_recluster_physical_plan
        (ReclusterTasks.recluster [⟨5⟩] [1] [2] 9) ⟨1⟩ ⟨2⟩ true) = 1 :=
  (claim7_exchange [⟨5⟩] [1] [2] 9 ⟨1⟩ ⟨2⟩ true).2 rfl

/-- C8: termination of the orchestration loop, checked after every
iteration: in single-batch mode the loop runs exactly one iteration and
stops regardless of its outcome; in run-until-exhausted mode it stops
successfully when a batch reports no remaining work or when the elapsed
wall-clock time meets or exceeds the timeout (also after a retryable
conflict), and otherwise re-enters for the remaining iterations. -/
theorem claim8_termination (t : Nat) (o : IterObs) (rest : List IterObs)
    (hab : o.aborted = false) :
    (reclusterLoop false t (o :: rest)).1 = 1 ∧
    (∃ x, (reclusterLoop false t (o :: rest)).2 = some x) ∧
    (o.res = Except.ok true →
      reclusterLoop true t (o :: rest) = (1, some LoopExit.ok)) ∧
    (o.res = Except.ok false → t ≤ o.elapsed →
      reclusterLoop true t (o :: rest) = (1, some LoopExit.ok)) ∧
    (∀ e, o.res = Except.error e → isConflict e = true → t ≤ o.elapsed →
      reclusterLoop true t (o :: rest) = (1, some LoopExit.ok)) ∧
    (o.res = Except.ok false → o.elapsed < t →
      reclusterLoop true t (o :: rest) =
        ((reclusterLoop true t rest).1 + 1, (reclusterLoop true t rest).2)) := by
  refine ⟨?_, ?_, ?_, ?_, ?_, ?_⟩
  · simp only [reclusterLoop, loopStep, postIterationCheck, hab]
    cases hres : o.res with
    | ok b => cases b <;> simp
    | error e => cases he : isConflict e <;> simp
  · simp only [reclusterLoop, loopStep, postIterationCheck, hab]
    cases hres : o.res with
    | ok b => cases b <;> simp
    | error e => cases he : isConflict e <;> simp
  · intro hres
    simp [reclusterLoop, loopStep, hres, hab]
  · intro hres ht
    simp [reclusterLoop, loopStep, postIterationCheck, hres, hab, ht]
  · intro e hres hc ht
    simp [reclusterLoop, loopStep, postIterationCheck, hres, hab, hc, ht]
  · intro hres ht
    have ht' : ¬ t ≤ o.elapsed := by omega
    simp [reclusterLoop, loopStep, postIterationCheck, hres, hab, ht']

/-- C8 (witness): a run-until-exhausted loop whose first batch reports no
remaining work stops successfully after that single iteration. -/
theorem claim8_witness :
    reclusterLoop true 100 [⟨false, Except.ok true, 0⟩] = (1, some LoopExit.ok) :=
  (claim8_termination 100 ⟨false, Except.ok true, 0⟩ [] rfl).2.2.1 rfl

/-- C9 (counterexample): a no-timestamp entry does not always prevent the
sub-namespace from being considered fully removed: with item limit 1, a
sub-namespace listing an expired timestamped file before a file carrying no
last-modified timestamp ends its sweep with `all_files_removed` still true
(the limit cut the listing short before the no-timestamp entry), and the
sentinel is deleted. -/
theorem claim9_counterexample :
    (⟨"k", "tmp/q9/k", true, ⟨none, 4⟩⟩ : InnerEntry) ∈
      (DirEntry.mk "tmp/q9/"
        [⟨"finished", "tmp/q9/finished", true, ⟨some 0, 0⟩⟩,
         ⟨"h", "tmp/q9/h", true, ⟨some 0, 3⟩⟩,
         ⟨"k", "tmp/q9/k", true, ⟨none, 4⟩⟩]).entries ∧
    (vacuum_finished_query 1 1000000000 0
      (DirEntry.mk "tmp/q9/"
        [⟨"finished", "tmp/q9/finished", true, ⟨some 0, 0⟩⟩,
         ⟨"h", "tmp/q9/h", true, ⟨some 0, 3⟩⟩,
         ⟨"k", "tmp/q9/k", true, ⟨none, 4⟩⟩]) ⟨0, 0, 0, []⟩).2 = true ∧
    "tmp/q9/finished" ∈ ((vacuum_finished_query 1 1000000000 0
      (DirEntry.mk "tmp/q9/"
        [⟨"finished", "tmp/q9/finished", true, ⟨some 0, 0⟩⟩,
         ⟨"h", "tmp/q9/h", true, ⟨some 0, 3⟩⟩,
         ⟨"k", "tmp/q9/k", true, ⟨none, 4⟩⟩]) ⟨0, 0, 0, []⟩).1).deleted := by
  refine ⟨by decide, by decide, by decide⟩

/-- C9 (amended): a file entry whose metadata carries no last-modified
timestamp is never queued for deletion at either level — every path the
sweep deletes is an expired timestamped file, a sentinel path, or a
directory path — and in the recursive sub-namespace sweep such an entry
additionally forces `all_files_removed` to false whenever the sweep is not
cut short by the global item limit (final removal count below the limit). -/
theorem claim9_no_timestamp (retain : Option Int) (limit : Nat) (ts : Int)
    (ns : List TopEntry) :
    (∀ q ∈ (do_vacuum_temporary_files retain limit ts ns).2,
      topDeletable (retain.getD DEFAULT_RETAIN_DURATION_MS) ts ns q) ∧
    (∀ (life : Int) (d : DirEntry) (st : SweepSt) (e : InnerEntry),
      e ∈ d.entries → e.isFile = true → ¬ e.name = "finished" →
      e.meta.lastModified = none →
      ((vacuum_finished_query limit ts life d st).1).removed < limit →
      (vacuum_finished_query limit ts life d st).2 = false) := by
  constructor
  · intro q hq
    unfold do_vacuum_temporary_files at hq
    by_cases h0 : limit = 0
    · simp [h0] at hq
    · rw [if_neg h0] at hq
      dsimp only at hq
      refine dvtf_go_deleted_sound _ limit ts _ ns ⟨0, 0, 0, []⟩ [] ?_ ?_ ?_ ?_ q hq
      · intro x hx
        exact absurd hx (List.not_mem_nil x)
      · intro x hx
        exact absurd hx (List.not_mem_nil x)
      · intro p meta hm m hsome hexp
        exact Or.inl ⟨p, meta, hm, ⟨m, hsome, hexp⟩, rfl⟩
      · intro d hm
        refine ⟨?_, ?_, ?_⟩
        · intro e he hf hn m hsome hexp
          exact Or.inr ⟨d, hm, Or.inl ⟨e, he, hf, hn, ⟨m, hsome, hexp⟩, rfl⟩⟩
        · exact Or.inr ⟨d, hm, Or.inr (Or.inl rfl)⟩
        · exact Or.inr ⟨d, hm, Or.inr (Or.inr rfl)⟩
  · intro life d st e he hf hn hnone hlt
    unfold vacuum_finished_query at hlt ⊢
    rw [vfq_finish_snd]
    rw [vfq_finish_removed] at hlt
    by_cases hs : st.removed < limit
    · rw [if_pos hs] at hlt ⊢
      rcases vfq_go_prevent limit ts life d.entries st [] true true e he hf hn
        hnone with h | h
      · exact h
      · omega
    · rw [if_neg hs] at hlt
      exact absurd hlt hs

/-- C9 (witness): the deletion-soundness part evaluated on a namespace with
one expired top-level file, and the prevention part on a sub-namespace with
one no-timestamp file under a generous limit. -/
theorem claim9_witness :
    topDeletable 259200000 300000000000 [TopEntry.file "f" ⟨some 0, 1⟩] "f" ∧
    (vacuum_finished_query 5 10 0 ⟨"w/", [⟨"n", "w/n", true, ⟨none, 0⟩⟩]⟩
      ⟨0, 0, 0, []⟩).2 = false :=
  ⟨(claim9_no_timestamp none 3 300000000000 [TopEntry.file "f" ⟨some 0, 1⟩]).1
      "f" (by decide),
   (claim9_no_timestamp none 5 10 []).2 0 ⟨"w/", [⟨"n", "w/n", true, ⟨none, 0⟩⟩]⟩
      ⟨0, 0, 0, []⟩ ⟨"n", "w/n", true, ⟨none, 0⟩⟩ (by decide) rfl (by decide)
      rfl (by decide)⟩

/-- C10: the profiling-scope exemption list is wider than the
scalar-evaluation and chunk-shuffle kinds: a `MergeInto` node receives no
scope exactly when its merge type is not `FullOperation`, an `EvalScalar`
node receives no scope exactly when its expression list is empty, and the
`Shuffle` / `ChunkCastSchema` / `ChunkFillAndReorder` / `ChunkMerge` kinds
never receive one. -/
theorem claim10_scope_exemptions (i : Nat) (input : PhysicalPlan)
    (exprs : List Nat) (mt : MergeIntoType) :
    (add_plan_scope (PhysicalPlan.evalScalar i input exprs) = none ↔ exprs = []) ∧
    (add_plan_scope (PhysicalPlan.mergeInto i input mt) = none ↔
      mt ≠ MergeIntoType.fullOperation) ∧
    add_plan_scope (PhysicalPlan.shuffle i input) = none ∧
    add_plan_scope (PhysicalPlan.chunkCastSchema i input) = none ∧
    add_plan_scope (PhysicalPlan.chunkFillAndReorder i input) = none ∧
    add_plan_scope (PhysicalPlan.chunkMerge i input) = none := by
  refine ⟨?_, ?_, rfl, rfl, rfl, rfl⟩
  · simp [add_plan_scope, List.isEmpty_iff]
  · by_cases h : mt = MergeIntoType.fullOperation <;> simp [add_plan_scope, h]

end DatabendCore
